import Mathlib

/-!
Verification of the image-reflector-controller reconcile core: a shallow
embedding of `controllers/imagerepository_controller.go` and
`api/v1alpha1/imagerepository_types.go`, with theorems about the scan
scheduler, the credential resolver, the status tracker and the reconcile
state machine.

Time is modelled as Go does: `time.Duration` and `time.Time` are integer
nanosecond counts, so both become `Int` here.  External collaborators
(record store, secret store, registry client, status writer) are modelled
as oracles carried in an environment record; the observable effects of a
cycle (status writes, tag-store writes) are collected in the cycle's
output record.
-/

namespace ImageReflector

/-- Go `time.Second` in nanoseconds. -/
def timeSecond : Int := 1000000000

/-- `defaultScanInterval = 10 * time.Minute` from the controller. -/
def defaultScanInterval : Int := 10 * 60 * timeSecond

/-- Modelled from the spec: the readiness condition type constant
(`ReadyCondition`) lives in an api file not present in the sources; the
spec fixes the condition type as `Ready`. -/
def ReadyCondition : String := "Ready"

/-- Modelled from the spec: the `Suspended` reason constant
(`SuspendedReason`) lives in an api file not present in the sources. -/
def SuspendedReason : String := "Suspended"

/-- Modelled from the spec: the invalid-image-reference reason constant
(`ImageURLInvalidReason`) lives in an api file not present in the sources;
the spec names the failure `InvalidImageReference`. -/
def ImageURLInvalidReason : String := "InvalidImageReference"

/-- Modelled from the spec: the `ReconciliationFailed` reason constant
(`ReconciliationFailedReason`) lives in an api file not present in the
sources. -/
def ReconciliationFailedReason : String := "ReconciliationFailed"

/-- Modelled from the spec: the `ReconciliationSucceeded` reason constant
(`ReconciliationSucceededReason`) lives in an api file not present in the
sources. -/
def ReconciliationSucceededReason : String := "ReconciliationSucceeded"

/-- `corev1.ConditionTrue` from the external Kubernetes api: the string
`True`. -/
def conditionTrue : String := "True"

/-- `corev1.ConditionFalse` from the external Kubernetes api: the string
`False`. -/
def conditionFalse : String := "False"

/-- Modelled from the spec: the api `Condition` struct is declared in a
file not present in the sources; the spec gives its fields as type,
status, reason, message and lastTransitionTime. -/
structure Condition where
  type_ : String
  status : String
  lastTransitionTime : Int
  reason : String
  message : String
  deriving DecidableEq, Repr

/-- `ImageRepositorySpec` from `imagerepository_types.go`: image name,
optional scan interval (duration, nanoseconds), optional secret
reference (the referenced secret's name) and the suspend flag. -/
structure ImageRepositorySpec where
  image : String
  scanInterval : Option Int
  secretRef : Option String
  suspend : Bool
  deriving DecidableEq, Repr

/-- `ScanResult` from `imagerepository_types.go`. -/
structure ScanResult where
  tagCount : Nat
  deriving DecidableEq, Repr

/-- `ImageRepositoryStatus` from `imagerepository_types.go`. -/
structure ImageRepositoryStatus where
  conditions : List Condition
  observedGeneration : Int
  canonicalImageName : String
  lastScanResult : ScanResult
  deriving DecidableEq, Repr

/-- `ImageRepository` from `imagerepository_types.go`; of the embedded
`ObjectMeta` only the generation and namespace are read by the core. -/
structure ImageRepository where
  generation : Int
  namespace_ : String
  spec : ImageRepositorySpec
  status : ImageRepositoryStatus
  deriving DecidableEq, Repr

/-- `SetImageRepositoryReadiness` from `imagerepository_types.go`:
replaces the whole condition list with a single Ready condition stamped
`now` (the Go code calls `metav1.Now()`; the current time is passed
explicitly here) and mirrors the record's generation into
`observedGeneration`. -/
def SetImageRepositoryReadiness (ir : ImageRepository) (status reason message : String)
    (now : Int) : ImageRepository :=
  { ir with status :=
    { ir.status with
        conditions := [⟨ReadyCondition, status, now, reason, message⟩],
        observedGeneration := ir.generation } }

/-- `GetLastTransitionTime` from `imagerepository_types.go`: the
timestamp of the first condition of type Ready, if any. -/
def GetLastTransitionTime (ir : ImageRepository) : Option Int :=
  (ir.status.conditions.find? (fun c => c.type_ == ReadyCondition)).map
    (fun c => c.lastTransitionTime)

/-- The scan interval after defaulting, as computed at the top of
`shouldScan`: `repo.Spec.ScanInterval` when set, else
`defaultScanInterval`. -/
def effectiveScanInterval (repo : ImageRepository) : Int :=
  repo.spec.scanInterval.getD defaultScanInterval

/-- `shouldScan` from the controller.  `db` stands for
`r.Database.Tags`: the tag store read oracle, mapping a canonical name
to its stored tags.  Returns whether to scan now and how long until the
next check. -/
def shouldScan (db : String → List String) (repo : ImageRepository) (now : Int) :
    Bool × Int :=
  let scanInterval := effectiveScanInterval repo
  match GetLastTransitionTime repo with
  | none => (true, scanInterval)
  | some lastTransitionTime =>
    if (db repo.status.canonicalImageName).length = 0 then
      (true, scanInterval)
    else
      let nextCheckIn := scanInterval - (now - lastTransitionTime)
      if nextCheckIn < timeSecond then (true, scanInterval)
      else (false, nextCheckIn)

/-- `authn.AuthConfig` from the external registry library, restricted to
the fields this core reads. -/
structure AuthConfig where
  username : String
  password : String
  deriving DecidableEq, Repr

/-- The credentials exposed by the authenticator `authn.FromConfig`
builds from an `AuthConfig`: exactly the configured username and
password pair. -/
def credentials (auth : AuthConfig) : String × String :=
  (auth.username, auth.password)

/-- `corev1.Secret`, restricted to what `authFromSecret` reads: its
identity, its type tag, and the result of JSON-decoding
`Data[".dockerconfigjson"]` into `{Auths: map[host]AuthConfig}` (the
decode itself is the external `encoding/json` collaborator, so its
outcome is carried as data: either a decode error or the association
list of host to credentials). -/
structure Secret where
  name : String
  namespace_ : String
  type_ : String
  dockerconfigAuths : Except String (List (String × AuthConfig))

/-- `authFromSecret` from the controller: only the
`kubernetes.io/dockerconfigjson` secret type is supported; the host
lookup in the decoded `Auths` map is an exact string match, and a miss
names the host and the secret's namespace/name identity. -/
def authFromSecret (secret : Secret) (registry : String) :
    Except String AuthConfig :=
  if secret.type_ == "kubernetes.io/dockerconfigjson" then
    match secret.dockerconfigAuths with
    | .error e => .error e
    | .ok auths =>
      match auths.lookup registry with
      | some auth => .ok auth
      | none =>
        .error ("auth for \"" ++ registry ++ "\" not found in secret "
          ++ secret.namespace_ ++ "/" ++ secret.name)
  else
    .error ("unknown secret type \"" ++ secret.type_ ++ "\"")

/-- The result of `name.ParseReference` (external library), restricted
to what the core reads: `ref.Context().String()` (the canonical
repository name) and `ref.Context().RegistryStr()` (the registry
host). -/
structure Ref where
  canonicalName : String
  registry : String
  deriving DecidableEq, Repr

/-- The external collaborators `scan` calls: the secret store
(`r.Get` on a namespace/name, succeeding with a secret or failing) and
the registry listing (`remote.ListWithContext`, succeeding with the tag
list or failing, e.g. on a deadline). -/
structure ScanEnv where
  getSecret : String → String → Except String Secret
  listTags : Except String (List String)

/-- What one `scan` call produces: the record to write to status, the
error to propagate (if any), and the tag-store writes (`SetTags` calls)
it performed. -/
structure ScanOutput where
  repo : ImageRepository
  err : Option String
  dbWrites : List (String × List String)
  deriving DecidableEq, Repr

/-- The credential phase of `scan` (its `if imageRepo.Spec.SecretRef !=
nil` block): no secret reference yields no authenticator; otherwise the
secret is fetched and resolved, and either failure is returned as is. -/
def scanAuth (env : ScanEnv) (imageRepo : ImageRepository) (ref : Ref) :
    Except String (Option AuthConfig) :=
  match imageRepo.spec.secretRef with
  | none => .ok none
  | some secretName =>
    match env.getSecret imageRepo.namespace_ secretName with
    | .error e => .error e
    | .ok secret =>
      match authFromSecret secret ref.registry with
      | .error e => .error e
      | .ok auth => .ok (some auth)

/-- `scan` from the controller: resolve credentials if a secret is
referenced, list the tags, and on success persist them to the tag store
and report the count in status; every failure is both written into the
returned status as Ready=False/ReconciliationFailed with the error's
text and returned as the error. -/
def scan (env : ScanEnv) (imageRepo : ImageRepository) (ref : Ref) (now : Int) :
    ScanOutput :=
  let canonicalName := ref.canonicalName
  match scanAuth env imageRepo ref with
  | .error e =>
    ⟨SetImageRepositoryReadiness imageRepo conditionFalse
        ReconciliationFailedReason e now, some e, []⟩
  | .ok _auth =>
    match env.listTags with
    | .error e =>
      ⟨SetImageRepositoryReadiness imageRepo conditionFalse
          ReconciliationFailedReason e now, some e, []⟩
    | .ok tags =>
      let repo1 :=
        { imageRepo with status :=
          { imageRepo.status with lastScanResult := ⟨tags.length⟩ } }
      ⟨SetImageRepositoryReadiness repo1 conditionTrue
          ReconciliationSucceededReason
          ("successful scan, found " ++ toString tags.length ++ " tags") now,
        none, [(canonicalName, tags)]⟩

/-- The outcome of fetching the record by key (`r.Get`): found, not
found, or some other store error. -/
inductive FetchResult where
  | found : ImageRepository → FetchResult
  | notFound : FetchResult
  | err : String → FetchResult
  deriving DecidableEq, Repr

/-- The external collaborators of one `Reconcile` cycle: the record
fetch outcome, the `name.ParseReference` outcome for the record's image
string, the tag store read oracle, the scan collaborators, the outcome
of the (at most one) `Status().Update` call, and the cycle's clock
reading. -/
structure ReconcileEnv where
  fetch : FetchResult
  parseRef : Except String Ref
  db : String → List String
  scanEnv : ScanEnv
  updateOutcome : Option String
  now : Int

/-- What one `Reconcile` cycle produces: the returned `ctrl.Result`
(requeue flag and requeue-after delay), the returned error, and the
cycle's observable effects — the records passed to `Status().Update`
in order, and the tag-store writes. -/
structure ReconcileOutput where
  requeue : Bool
  requeueAfter : Int
  err : Option String
  statusWrites : List ImageRepository
  dbWrites : List (String × List String)
  deriving DecidableEq, Repr

/-- Record a status update attempt: the Go `r.Status().Update(ctx, &s)`
call, whose outcome is the environment's update oracle. -/
def updateStatus (env : ReconcileEnv) (_s : ImageRepository) :
    Option String := env.updateOutcome

/-- Setting `imageRepo.Status.CanonicalImageName = ref.Context().String()`
on the controller's in-memory copy of the record. -/
def withCanonicalName (repo : ImageRepository) (n : String) : ImageRepository :=
  { repo with status := { repo.status with canonicalImageName := n } }

/-- `Reconcile` from the controller, as a function of the cycle's
environment: fetch, suspend check, image reference parse, schedule
check, and (when due) scan followed by the status write. -/
def Reconcile (env : ReconcileEnv) : ReconcileOutput :=
  match env.fetch with
  | .notFound => ⟨false, 0, none, [], []⟩
  | .err e => ⟨false, 0, some e, [], []⟩
  | .found imageRepo =>
    if imageRepo.spec.suspend then
      let status := SetImageRepositoryReadiness imageRepo conditionFalse
        SuspendedReason "ImageRepository is suspended, skipping reconciliation"
        env.now
      match updateStatus env status with
      | some e => ⟨true, 0, some e, [status], []⟩
      | none => ⟨false, 0, none, [status], []⟩
    else
      match env.parseRef with
      | .error e =>
        let status := SetImageRepositoryReadiness imageRepo conditionFalse
          ImageURLInvalidReason e env.now
        match updateStatus env status with
        | some ue => ⟨true, 0, some ue, [status], []⟩
        | none => ⟨true, 0, some e, [status], []⟩
      | .ok ref =>
        let imageRepo := withCanonicalName imageRepo ref.canonicalName
        let sw := shouldScan env.db imageRepo env.now
        if sw.1 then
          let out := scan env.scanEnv imageRepo ref env.now
          match updateStatus env out.repo with
          | some ue => ⟨true, 0, some ue, [out.repo], out.dbWrites⟩
          | none =>
            match out.err with
            | some reconcileErr =>
              ⟨true, 0, some reconcileErr, [out.repo], out.dbWrites⟩
            | none => ⟨false, sw.2, none, [out.repo], out.dbWrites⟩
        else
          ⟨false, sw.2, none, [], []⟩

/-! Sample records used by witnesses. -/

/-- A fresh record: no conditions yet, default interval, no secret. -/
def freshRepo : ImageRepository :=
  ⟨1, "default", ⟨"alpine", none, none, false⟩, ⟨[], 0, "", ⟨0⟩⟩⟩

/-- A previously reconciled record: one Ready condition stamped at time
0, canonical name recorded, one tag counted. -/
def readyRepo : ImageRepository :=
  ⟨3, "default", ⟨"alpine", none, none, false⟩,
    ⟨[⟨ReadyCondition, conditionTrue, 0, ReconciliationSucceededReason, "ok"⟩],
      3, "index.docker.io/library/alpine", ⟨1⟩⟩⟩

/-- A suspended record. -/
def suspendedRepo : ImageRepository :=
  ⟨2, "default", ⟨"alpine", none, none, true⟩, ⟨[], 0, "", ⟨0⟩⟩⟩

/-- A previously reconciled record whose status does not yet carry the
canonical image name. -/
def staleRepo : ImageRepository :=
  ⟨3, "default", ⟨"alpine", none, none, false⟩,
    ⟨[⟨ReadyCondition, conditionTrue, 0, ReconciliationSucceededReason, "ok"⟩],
      3, "", ⟨1⟩⟩⟩

/-- The parsed reference for `alpine`. -/
def alpineRef : Ref := ⟨"index.docker.io/library/alpine", "index.docker.io"⟩

/-- A cycle two seconds after a success, with stored tags: the
scheduler decides the scan is not due. -/
def notDueEnv : ReconcileEnv :=
  ⟨.found staleRepo, .ok alpineRef, fun _ => ["v1"],
    ⟨fun _ _ => .error "unreached", .ok ["v1"]⟩, none, 2 * timeSecond⟩

/-- A first-ever cycle whose registry listing returns three tags. -/
def scanOkEnv : ReconcileEnv :=
  ⟨.found freshRepo, .ok alpineRef, fun _ => [],
    ⟨fun _ _ => .error "unreached", .ok ["v1", "v2", "latest"]⟩, none, 7⟩

/-- A due cycle whose registry listing exceeds its deadline. -/
def scanFailEnv : ReconcileEnv :=
  ⟨.found freshRepo, .ok alpineRef, fun _ => [],
    ⟨fun _ _ => .error "unreached", .error "context deadline exceeded"⟩,
    none, 7⟩

/-- A cycle on a suspended record. -/
def suspendEnv : ReconcileEnv :=
  ⟨.found suspendedRepo, .error "unreached", fun _ => [],
    ⟨fun _ _ => .error "unreached", .error "unreached"⟩, none, 11⟩

/-! Helper lemmas. -/

/-- Whenever `shouldScan` says to scan now, the returned next check is
the (defaulted) scan interval. -/
theorem shouldScan_scanNow_nextCheckIn (db : String → List String)
    (repo : ImageRepository) (now : Int)
    (h : (shouldScan db repo now).1 = true) :
    (shouldScan db repo now).2 = effectiveScanInterval repo := by
  unfold shouldScan at *
  rcases hl : GetLastTransitionTime repo with _ | lt <;> simp [hl] at h ⊢
  by_cases hd : db repo.status.canonicalImageName = [] <;> simp [hd] at h ⊢
  by_cases hw : effectiveScanInterval repo - (now - lt) < timeSecond <;>
    simp [hw] at h ⊢

/-- The record `scan` hands back for the status write is always built by
`SetImageRepositoryReadiness`, stamped with the cycle's clock, from a
record whose generation is the input record's. -/
theorem scan_repo_shape (env : ScanEnv) (imageRepo : ImageRepository)
    (ref : Ref) (now : Int) :
    ∃ base st reason msg,
      (scan env imageRepo ref now).repo =
        SetImageRepositoryReadiness base st reason msg now ∧
      base.generation = imageRepo.generation := by
  unfold scan
  rcases scanAuth env imageRepo ref with e | a
  · exact ⟨imageRepo, _, _, _, rfl, rfl⟩
  · rcases env.listTags with e | tags
    · exact ⟨imageRepo, _, _, _, rfl, rfl⟩
    · exact ⟨_, _, _, _, rfl, rfl⟩

/-! Theorems for the claims. -/

/-- C3: if the record has no Ready condition, or the tag store holds no
tags under the record's canonical name, `shouldScan` says scan now and
the next check is the (defaulted) scan interval, regardless of elapsed
time. -/
theorem shouldScan_fresh_or_empty (db : String → List String)
    (repo : ImageRepository) (now : Int)
    (h : GetLastTransitionTime repo = none ∨
      (db repo.status.canonicalImageName).length = 0) :
    shouldScan db repo now = (true, effectiveScanInterval repo) := by
  unfold shouldScan
  rcases h with h | h
  · simp [h]
  · rcases hl : GetLastTransitionTime repo with _ | lt <;> simp [h]

/-- C3 witness: a record with no conditions and an empty tag store is
scanned at once with the default ten-minute next check. -/
theorem shouldScan_fresh_or_empty_witness :
    GetLastTransitionTime freshRepo = none ∧
    shouldScan (fun _ => []) freshRepo 5 = (true, defaultScanInterval) :=
  ⟨by decide,
    shouldScan_fresh_or_empty (fun _ => []) freshRepo 5 (Or.inl (by decide))⟩

/-- C4: for a record with a Ready condition and stored tags,
`shouldScan` compares `remaining = scanInterval - (now - lastReady)`
with one second: below it, scan now with the interval as next check;
otherwise don't scan, with exactly `remaining` as next check. -/
theorem shouldScan_due_rule (db : String → List String)
    (repo : ImageRepository) (now lt : Int)
    (hl : GetLastTransitionTime repo = some lt)
    (hd : (db repo.status.canonicalImageName).length ≠ 0) :
    shouldScan db repo now =
      if effectiveScanInterval repo - (now - lt) < timeSecond then
        (true, effectiveScanInterval repo)
      else
        (false, effectiveScanInterval repo - (now - lt)) := by
  unfold shouldScan
  simp [hl, hd]

/-- C4 witness: two seconds after a success with the default interval
the scheduler holds off and asks to come back in ten minutes minus two
seconds; just before the interval elapses it scans again. -/
theorem shouldScan_due_rule_witness :
    GetLastTransitionTime readyRepo = some 0 ∧
    ((fun _ => ["v1"]) readyRepo.status.canonicalImageName).length ≠ 0 ∧
    shouldScan (fun _ => ["v1"]) readyRepo (2 * timeSecond) =
      (false, defaultScanInterval - 2 * timeSecond) := by
  refine ⟨by decide, by decide, ?_⟩
  have h := shouldScan_due_rule (fun _ => ["v1"]) readyRepo (2 * timeSecond) 0
    (by decide) (by decide)
  rw [h]
  decide

/-- C7: resolving a dockerconfigjson secret mapping the Docker Hub v1
host to user `fooser` and password `foopass` against that very host
yields an authenticator whose credentials are exactly that pair. -/
theorem authFromSecret_roundtrip (nm ns : String) :
    ∃ auth,
      authFromSecret
        ⟨nm, ns, "kubernetes.io/dockerconfigjson",
          .ok [("https://index.docker.io/v1/", ⟨"fooser", "foopass"⟩)]⟩
        "https://index.docker.io/v1/" = .ok auth ∧
      credentials auth = ("fooser", "foopass") :=
  ⟨⟨"fooser", "foopass"⟩, rfl, rfl⟩

/-- C8: an unsupported secret type resolves to an `unknown secret type`
error, and a supported secret whose decoded host map has no entry for
the registry host resolves to an error naming the host and the secret's
namespace/name identity. -/
theorem authFromSecret_errors (secret : Secret) (registry : String) :
    (secret.type_ ≠ "kubernetes.io/dockerconfigjson" →
      authFromSecret secret registry =
        .error ("unknown secret type \"" ++ secret.type_ ++ "\"")) ∧
    (∀ auths, secret.type_ = "kubernetes.io/dockerconfigjson" →
      secret.dockerconfigAuths = .ok auths →
      auths.lookup registry = none →
      authFromSecret secret registry =
        .error ("auth for \"" ++ registry ++ "\" not found in secret "
          ++ secret.namespace_ ++ "/" ++ secret.name)) := by
  constructor
  · intro h
    unfold authFromSecret
    simp [h]
  · intro auths ht hd hm
    unfold authFromSecret
    simp [ht, hd, hm]

/-- C8 witness: a generic-type secret is rejected as an unknown type,
and a dockerconfigjson secret without the queried host is rejected
naming `quay.io` and `default/regcred`. -/
theorem authFromSecret_errors_witness :
    authFromSecret ⟨"regcred", "default", "Opaque", .ok []⟩ "quay.io" =
      .error ("unknown secret type \"Opaque\"") ∧
    authFromSecret
        ⟨"regcred", "default", "kubernetes.io/dockerconfigjson", .ok []⟩
        "quay.io" =
      .error ("auth for \"quay.io\" not found in secret default/regcred") := by
  constructor
  · exact (authFromSecret_errors ⟨"regcred", "default", "Opaque", .ok []⟩
      "quay.io").1 (by decide)
  · exact (authFromSecret_errors
      ⟨"regcred", "default", "kubernetes.io/dockerconfigjson", .ok []⟩
      "quay.io").2 [] rfl rfl rfl

/-- C1 counterexample: the claim that a not-due cycle "writes the
canonical image name into the record's status (when it changed)" is
false — in the not-due cycle `Reconcile` returns without calling the
status writer at all, so the fresh canonical name is never persisted. -/
theorem reconcile_notDue_claim_counterexample :
    ¬ (∀ env repo ref,
      env.fetch = FetchResult.found repo →
      repo.spec.suspend = false →
      env.parseRef = Except.ok ref →
      (shouldScan env.db (withCanonicalName repo ref.canonicalName) env.now).1
          = false →
      ((Reconcile env).dbWrites = [] ∧
        (repo.status.canonicalImageName ≠ ref.canonicalName →
          ∃ w ∈ (Reconcile env).statusWrites,
            w.status.canonicalImageName = ref.canonicalName) ∧
        (Reconcile env).requeueAfter =
          (shouldScan env.db (withCanonicalName repo ref.canonicalName)
            env.now).2 ∧
        (Reconcile env).err = none)) := by
  intro h
  obtain ⟨-, h2, -, -⟩ := h notDueEnv staleRepo alpineRef rfl rfl rfl
    (by decide)
  obtain ⟨w, hw, -⟩ := h2 (by decide)
  rw [show (Reconcile notDueEnv).statusWrites = [] from rfl] at hw
  simp at hw

/-- C1 (amended): in a not-due cycle `Reconcile` skips scanning, makes
no status write whatsoever (the canonical name is set only on the
in-memory copy and is not persisted), and returns the scheduler's
next-check-in as the requeue delay with no error. -/
theorem reconcile_notDue (env : ReconcileEnv) (repo : ImageRepository)
    (ref : Ref)
    (hf : env.fetch = FetchResult.found repo)
    (hs : repo.spec.suspend = false)
    (hp : env.parseRef = Except.ok ref)
    (hd : (shouldScan env.db (withCanonicalName repo ref.canonicalName)
        env.now).1 = false) :
    Reconcile env =
      ⟨false,
        (shouldScan env.db (withCanonicalName repo ref.canonicalName)
          env.now).2,
        none, [], []⟩ := by
  simp [Reconcile, hf, hp, hs, hd]

/-- C1 witness: two seconds after a success the cycle performs no
writes and asks to be requeued in ten minutes minus two seconds. -/
theorem reconcile_notDue_witness :
    Reconcile notDueEnv =
      ⟨false, defaultScanInterval - 2 * timeSecond, none, [], []⟩ := by
  rw [reconcile_notDue notDueEnv staleRepo alpineRef rfl rfl rfl (by decide)]
  decide

/-- C2 counterexample: the claim that every cycle but the not-found one
performs exactly one status write is false — the not-due cycle performs
none. -/
theorem reconcile_one_write_counterexample :
    ¬ (∀ env,
      (env.fetch = FetchResult.notFound →
        (Reconcile env).statusWrites = [] ∧ (Reconcile env).err = none) ∧
      (env.fetch ≠ FetchResult.notFound →
        (Reconcile env).statusWrites.length = 1)) := by
  intro h
  have h2 := (h notDueEnv).2 (by decide)
  rw [show (Reconcile notDueEnv).statusWrites = [] from rfl] at h2
  simp at h2

/-- C2 (amended): a cycle performs exactly one status write when the
record is fetched and is suspended, fails to parse, or is due for a
scan; it performs no status write when the fetch reports not-found
(also returning no error), when the fetch fails otherwise, or when the
scan is not due. -/
theorem reconcile_write_count (env : ReconcileEnv) :
    (env.fetch = FetchResult.notFound →
      (Reconcile env).statusWrites = [] ∧ (Reconcile env).err = none) ∧
    (Reconcile env).statusWrites.length =
      (match env.fetch with
        | .notFound => 0
        | .err _ => 0
        | .found repo =>
          if repo.spec.suspend then 1
          else
            match env.parseRef with
            | .error _ => 1
            | .ok ref =>
              if (shouldScan env.db (withCanonicalName repo ref.canonicalName)
                  env.now).1 then 1 else 0) := by
  obtain ⟨fetch, parseRef, db, scanEnv, updateOutcome, now⟩ := env
  rcases fetch with repo | _ | e
  · refine ⟨by simp, ?_⟩
    by_cases hs : repo.spec.suspend
    · rcases updateOutcome with _ | ue <;> simp [Reconcile, hs, updateStatus]
    · rcases parseRef with e | ref
      · rcases updateOutcome with _ | ue <;>
          simp [Reconcile, hs, updateStatus]
      · by_cases hd : (shouldScan db (withCanonicalName repo ref.canonicalName)
            now).1
        · rcases updateOutcome with _ | ue
          · rcases he : (scan scanEnv (withCanonicalName repo ref.canonicalName)
                ref now).err with _ | re <;>
              simp [Reconcile, hs, hd, he, updateStatus]
          · simp [Reconcile, hs, hd, updateStatus]
        · simp [Reconcile, hs, hd]
  · simp [Reconcile]
  · simp [Reconcile]

/-- C2 witness: at concrete environments the count theorem yields zero
writes for a not-found cycle and for a not-due cycle, and one write for
a suspended cycle. -/
theorem reconcile_write_count_witness :
    (Reconcile ⟨FetchResult.notFound, Except.error "unreached", fun _ => [],
        ⟨fun _ _ => Except.error "unreached", Except.error "unreached"⟩,
        none, 0⟩).statusWrites = [] ∧
    (Reconcile notDueEnv).statusWrites.length = 0 ∧
    (Reconcile suspendEnv).statusWrites.length = 1 := by
  refine ⟨(reconcile_write_count _).1 rfl |>.1, ?_, ?_⟩
  · rw [(reconcile_write_count notDueEnv).2]
    decide
  · rw [(reconcile_write_count suspendEnv).2]
    decide

/-- C5: in a due cycle whose credential phase and registry listing both
succeed (and whose status write succeeds), the tag store receives the
canonical name with the listed tags, the written status reports the tag
count with a Ready=True/ReconciliationSucceeded condition and a message
naming the count, and the cycle returns the scan interval as the
requeue delay with no error. -/
theorem reconcile_scan_success (env : ReconcileEnv) (repo : ImageRepository)
    (ref : Ref) (tags : List String)
    (hf : env.fetch = FetchResult.found repo)
    (hs : repo.spec.suspend = false)
    (hp : env.parseRef = Except.ok ref)
    (hd : (shouldScan env.db (withCanonicalName repo ref.canonicalName)
        env.now).1 = true)
    (ha : ∃ a, scanAuth env.scanEnv (withCanonicalName repo ref.canonicalName)
        ref = Except.ok a)
    (ht : env.scanEnv.listTags = Except.ok tags)
    (hu : env.updateOutcome = none) :
    Reconcile env =
      ⟨false, effectiveScanInterval repo, none,
        [SetImageRepositoryReadiness
          { withCanonicalName repo ref.canonicalName with status :=
            { (withCanonicalName repo ref.canonicalName).status with
                lastScanResult := ⟨tags.length⟩ } }
          conditionTrue ReconciliationSucceededReason
          ("successful scan, found " ++ toString tags.length ++ " tags")
          env.now],
        [(ref.canonicalName, tags)]⟩ := by
  obtain ⟨a, ha⟩ := ha
  have hw := shouldScan_scanNow_nextCheckIn env.db
    (withCanonicalName repo ref.canonicalName) env.now hd
  have hei : effectiveScanInterval (withCanonicalName repo ref.canonicalName)
      = effectiveScanInterval repo := rfl
  simp [Reconcile, hf, hp, hs, hd, scan, ha, ht, updateStatus, hu,
    hw, hei]

/-- C5 witness: a first-ever cycle listing `v1`, `v2`, `latest` stores
the three tags under the canonical name, reports three tags in the new
Ready=True status, and requeues in the default ten minutes. -/
theorem reconcile_scan_success_witness :
    Reconcile scanOkEnv =
      ⟨false, defaultScanInterval, none,
        [⟨1, "default", ⟨"alpine", none, none, false⟩,
          ⟨[⟨ReadyCondition, conditionTrue, 7, ReconciliationSucceededReason,
              "successful scan, found 3 tags"⟩],
            1, "index.docker.io/library/alpine", ⟨3⟩⟩⟩],
        [("index.docker.io/library/alpine", ["v1", "v2", "latest"])]⟩ := by
  rw [reconcile_scan_success scanOkEnv freshRepo alpineRef
    ["v1", "v2", "latest"] rfl rfl rfl (by decide) ⟨none, rfl⟩ rfl rfl]
  decide

/-- C6: in a due cycle where the scan phase fails — the secret fetch or
credential resolution fails, or the registry listing fails (for example
on a deadline) — the written status carries a single
Ready=False/ReconciliationFailed condition with the error's text as
message, the tag store is untouched, and the same error is returned to
the caller rather than swallowed (assuming the status write itself
succeeds). -/
theorem reconcile_scan_failure (env : ReconcileEnv) (repo : ImageRepository)
    (ref : Ref) (e : String)
    (hf : env.fetch = FetchResult.found repo)
    (hs : repo.spec.suspend = false)
    (hp : env.parseRef = Except.ok ref)
    (hd : (shouldScan env.db (withCanonicalName repo ref.canonicalName)
        env.now).1 = true)
    (hu : env.updateOutcome = none)
    (he : scanAuth env.scanEnv (withCanonicalName repo ref.canonicalName) ref
        = Except.error e ∨
      ((∃ a, scanAuth env.scanEnv (withCanonicalName repo ref.canonicalName)
          ref = Except.ok a) ∧
        env.scanEnv.listTags = Except.error e)) :
    Reconcile env =
      ⟨true, 0, some e,
        [SetImageRepositoryReadiness (withCanonicalName repo ref.canonicalName)
          conditionFalse ReconciliationFailedReason e env.now],
        []⟩ := by
  rcases he with he | ⟨⟨a, ha⟩, ht⟩
  · simp [Reconcile, hf, hp, hs, hd, scan, he, updateStatus, hu]
  · simp [Reconcile, hf, hp, hs, hd, scan, ha, ht, updateStatus, hu]

/-- C6 witness: a registry listing that exceeds its deadline yields a
Ready=False/ReconciliationFailed status carrying the timeout message,
no tag-store write, and the propagated error. -/
theorem reconcile_scan_failure_witness :
    Reconcile scanFailEnv =
      ⟨true, 0, some "context deadline exceeded",
        [⟨1, "default", ⟨"alpine", none, none, false⟩,
          ⟨[⟨ReadyCondition, conditionFalse, 7, ReconciliationFailedReason,
              "context deadline exceeded"⟩],
            1, "index.docker.io/library/alpine", ⟨0⟩⟩⟩],
        []⟩ := by
  rw [reconcile_scan_failure scanFailEnv freshRepo alpineRef
    "context deadline exceeded" rfl rfl rfl (by decide) rfl
    (Or.inr ⟨⟨none, rfl⟩, rfl⟩)]
  decide

/-- C9: every record handed to the status writer during a cycle carries
exactly one condition, of type Ready, stamped with the cycle's clock,
and its observedGeneration equals the fetched record's generation — the
condition list is replaced wholesale, never appended to. -/
theorem reconcile_status_write_shape (env : ReconcileEnv)
    (repo : ImageRepository)
    (hf : env.fetch = FetchResult.found repo) :
    ∀ w ∈ (Reconcile env).statusWrites,
      w.status.conditions.length = 1 ∧
      (∀ c ∈ w.status.conditions,
        c.type_ = ReadyCondition ∧ c.lastTransitionTime = env.now) ∧
      w.status.observedGeneration = repo.generation := by
  intro w hw
  by_cases hs : repo.spec.suspend
  · rcases hu : env.updateOutcome with _ | ue <;>
      simp [Reconcile, hf, hs, updateStatus, hu] at hw <;>
      simp [hw, SetImageRepositoryReadiness]
  · rcases hp : env.parseRef with e | ref
    · rcases hu : env.updateOutcome with _ | ue <;>
        simp [Reconcile, hf, hs, hp, updateStatus, hu] at hw <;>
        simp [hw, SetImageRepositoryReadiness]
    · by_cases hd : (shouldScan env.db (withCanonicalName repo
          ref.canonicalName) env.now).1
      · obtain ⟨base, st, reason, msg, hrepo, hgen⟩ :=
          scan_repo_shape env.scanEnv (withCanonicalName repo
            ref.canonicalName) ref env.now
        have hw2 : w = (scan env.scanEnv (withCanonicalName repo
            ref.canonicalName) ref env.now).repo := by
          rcases hu : env.updateOutcome with _ | ue
          · rcases he : (scan env.scanEnv (withCanonicalName repo
                ref.canonicalName) ref env.now).err with _ | re <;>
              simp [Reconcile, hf, hs, hp, hd, updateStatus, hu, he] at hw <;>
              exact hw
          · simp [Reconcile, hf, hs, hp, hd, updateStatus, hu] at hw
            exact hw
        rw [hw2, hrepo]
        simp [SetImageRepositoryReadiness, hgen, withCanonicalName]
      · simp [Reconcile, hf, hs, hp, hd] at hw

/-- C9 witness: the suspended cycle's single status write carries one
Ready condition stamped at the cycle's clock and mirrors the record's
generation. -/
theorem reconcile_status_write_shape_witness :
    (Reconcile suspendEnv).statusWrites.length = 1 ∧
    ∀ w ∈ (Reconcile suspendEnv).statusWrites,
      w.status.conditions.length = 1 ∧ w.status.observedGeneration = 2 := by
  refine ⟨by decide, fun w hw => ?_⟩
  have h := reconcile_status_write_shape suspendEnv suspendedRepo rfl w hw
  exact ⟨h.1, h.2.2⟩

/-- C10: the tag store is written only by a cycle that reaches a
successful registry listing — whenever a cycle performed any tag-store
write, the record was fetched and not suspended, the image reference
parsed, the scan was due, the credential phase succeeded and the
listing succeeded, and the single write stored the listed tags under
the canonical name; every other path leaves the store untouched. -/
theorem reconcile_dbWrites_only_on_success (env : ReconcileEnv)
    (h : (Reconcile env).dbWrites ≠ []) :
    ∃ repo ref tags,
      env.fetch = FetchResult.found repo ∧
      repo.spec.suspend = false ∧
      env.parseRef = Except.ok ref ∧
      (shouldScan env.db (withCanonicalName repo ref.canonicalName)
        env.now).1 = true ∧
      (∃ a, scanAuth env.scanEnv (withCanonicalName repo ref.canonicalName)
        ref = Except.ok a) ∧
      env.scanEnv.listTags = Except.ok tags ∧
      (Reconcile env).dbWrites = [(ref.canonicalName, tags)] := by
  rcases hf : env.fetch with repo | _ | e
  · by_cases hs : repo.spec.suspend
    · rcases hu : env.updateOutcome with _ | ue <;>
        simp [Reconcile, hf, hs, updateStatus, hu] at h
    · rcases hp : env.parseRef with e | ref
      · rcases hu : env.updateOutcome with _ | ue <;>
          simp [Reconcile, hf, hs, hp, updateStatus, hu] at h
      · by_cases hd : (shouldScan env.db (withCanonicalName repo
            ref.canonicalName) env.now).1
        · have hdb : (Reconcile env).dbWrites =
              (scan env.scanEnv (withCanonicalName repo ref.canonicalName)
                ref env.now).dbWrites := by
            rcases hu : env.updateOutcome with _ | ue
            · rcases he : (scan env.scanEnv (withCanonicalName repo
                  ref.canonicalName) ref env.now).err with _ | re <;>
                simp [Reconcile, hf, hs, hp, hd, updateStatus, hu, he]
            · simp [Reconcile, hf, hs, hp, hd, updateStatus, hu]
          rw [hdb] at h ⊢
          rcases ha : scanAuth env.scanEnv (withCanonicalName repo
              ref.canonicalName) ref with e | a
          · simp [scan, ha] at h
          · rcases ht : env.scanEnv.listTags with e | tags
            · simp [scan, ha, ht] at h
            · exact ⟨repo, ref, tags, rfl, by simpa using hs, rfl, hd,
                ⟨a, ha⟩, rfl, by simp [scan, ha, ht]⟩
        · simp [Reconcile, hf, hs, hp, hd] at h
  · simp [Reconcile, hf] at h
  · simp [Reconcile, hf] at h

/-- C10 witness: the successful-scan cycle did write the tag store, and
the theorem's success facts hold of it. -/
theorem reconcile_dbWrites_only_on_success_witness :
    (Reconcile scanOkEnv).dbWrites ≠ [] ∧
    ∃ repo ref tags,
      scanOkEnv.fetch = FetchResult.found repo ∧
      repo.spec.suspend = false ∧
      scanOkEnv.parseRef = Except.ok ref ∧
      (shouldScan scanOkEnv.db (withCanonicalName repo ref.canonicalName)
        scanOkEnv.now).1 = true ∧
      (∃ a, scanAuth scanOkEnv.scanEnv
        (withCanonicalName repo ref.canonicalName) ref = Except.ok a) ∧
      scanOkEnv.scanEnv.listTags = Except.ok tags ∧
      (Reconcile scanOkEnv).dbWrites = [(ref.canonicalName, tags)] :=
  ⟨by decide, reconcile_dbWrites_only_on_success scanOkEnv (by decide)⟩

end ImageReflector
